import Mathlib

/-!
Verification of the `EventToken.h` compatibility shim
(`src/vendor_patch/webview/libs/mswebview2/include/EventToken.h`).

The header declares a single C structure,

  typedef struct EventRegistrationToken \x7b
      int64_t value;
  \x7d EventRegistrationToken;

wrapped in an include guard on the macro `_EVENTTOKEN_H_`, after a
`#include <stdint.h>`.  The development below embeds:

* the signed 64-bit value range (`isInt64`),
* the token record itself (`EventRegistrationToken`) and its trivial
  operations (construction, copy, field read),
* a small model of C scalar types with size, alignment and signedness,
  and the standard struct-layout computation (aligned field placement,
  tail padding), so that the binary-layout claims can be stated,
* a model of the relevant preprocessor directives, so that the
  include-guard claim can be stated.
-/

namespace EventTokenShim

/-- Smallest value representable by `int64_t`. -/
def int64Min : Int := -(2 ^ 63)

/-- Largest value representable by `int64_t`. -/
def int64Max : Int := 2 ^ 63 - 1

/-- Range test for the signed 64-bit integers of `<stdint.h>`. -/
def isInt64 (n : Int) : Bool := decide (int64Min ≤ n) && decide (n ≤ int64Max)

/-- The token structure from the header: exactly one field, `value`,
holding a signed 64-bit integer. -/
structure EventRegistrationToken where
  value : Int
deriving DecidableEq

/-- A token is well formed exactly when its one field fits in the
storage width of `int64_t`; the header imposes nothing further. -/
def wellFormed (t : EventRegistrationToken) : Bool := isInt64 t.value

/-- Construction of a token from an integer argument.  The `none`
branch can only be reached by an argument outside the `int64_t` range,
which a well-typed C caller cannot supply. -/
def mkToken (n : Int) : Option EventRegistrationToken :=
  if isInt64 n then some ⟨n⟩ else none

/-- Copying a token copies its single field (C value semantics of a
plain-old-data struct). -/
def copyToken (t : EventRegistrationToken) : EventRegistrationToken := ⟨t.value⟩

/-- Reading the `value` field of a token. -/
def readValue (t : EventRegistrationToken) : Int := t.value

/-- The C scalar types relevant to `<stdint.h>` fixed-width fields. -/
inductive CType where
  | int32
  | int64
  | uint32
  | uint64
deriving DecidableEq

/-- Size in bytes of a scalar type. -/
def CType.sizeofBytes : CType → Nat
  | .int32 => 4
  | .int64 => 8
  | .uint32 => 4
  | .uint64 => 8

/-- Alignment requirement in bytes of a scalar type. -/
def CType.alignofBytes : CType → Nat
  | .int32 => 4
  | .int64 => 8
  | .uint32 => 4
  | .uint64 => 8

/-- Whether a scalar type is signed. -/
def CType.isSigned : CType → Bool
  | .int32 => true
  | .int64 => true
  | .uint32 => false
  | .uint64 => false

/-- Top-level C declarations that a header fragment could contain. -/
inductive CDecl where
  | structDecl (tag : String) (fields : List (String × CType)) (typedefName : String)
  | funDecl (name : String)
  | varDecl (name : String)
deriving DecidableEq

/-- Recognises a struct type declaration. -/
def CDecl.isStructDecl : CDecl → Bool
  | .structDecl _ _ _ => true
  | _ => false

/-- Recognises a function declaration. -/
def CDecl.isFunDecl : CDecl → Bool
  | .funDecl _ => true
  | _ => false

/-- Recognises a variable (mutable state) declaration. -/
def CDecl.isVarDecl : CDecl → Bool
  | .varDecl _ => true
  | _ => false

/-- Struct tags introduced by a declaration list. -/
def structTags (ds : List CDecl) : List String :=
  ds.filterMap fun d =>
    match d with
    | .structDecl tag _ _ => some tag
    | _ => none

/-- The lines of a header, as seen by the C preprocessor. -/
inductive PPLine where
  | ifndefLine (m : String)
  | defineLine (m : String)
  | endifLine
  | includeSys (h : String)
  | declLine (d : CDecl)
deriving DecidableEq

/-- Runs the preprocessor over a line list.  The state is the set of
defined macros and the nesting depth of conditional groups currently
being skipped (0 means the current region is active).  Returns the
surviving declarations and the final macro set. -/
def runPP : List PPLine → List String → Nat → List CDecl × List String
  | [], defs, _ => ([], defs)
  | l :: ls, defs, skip =>
    match l with
    | .ifndefLine m =>
        if skip > 0 then runPP ls defs (skip + 1)
        else if defs.contains m then runPP ls defs 1
        else runPP ls defs 0
    | .defineLine m =>
        if skip > 0 then runPP ls defs skip
        else runPP ls (m :: defs) 0
    | .endifLine => runPP ls defs (skip - 1)
    | .includeSys _ => runPP ls defs skip
    | .declLine d =>
        if skip > 0 then runPP ls defs skip
        else
          let r := runPP ls defs 0
          (d :: r.1, r.2)

/-- The one declaration of `EventToken.h`: the struct tag
`EventRegistrationToken`, one `int64_t` field named `value`, and the
typedef of the same name. -/
def tokenStructDecl : CDecl :=
  .structDecl "EventRegistrationToken" [("value", CType.int64)] "EventRegistrationToken"

/-- The full content of `EventToken.h`, line by line: the include
guard on `_EVENTTOKEN_H_`, the inclusion of `<stdint.h>`, and the one
struct declaration. -/
def eventTokenHeader : List PPLine :=
  [ .ifndefLine "_EVENTTOKEN_H_",
    .defineLine "_EVENTTOKEN_H_",
    .includeSys "stdint.h",
    .declLine tokenStructDecl,
    .endifLine ]

/-- Declarations a translation unit obtains from one inclusion of the
header. -/
def includeOnce : List CDecl := (runPP eventTokenHeader [] 0).1

/-- Declarations a translation unit obtains from two consecutive
inclusions of the header. -/
def includeTwice : List CDecl := (runPP (eventTokenHeader ++ eventTokenHeader) [] 0).1

/-- A computed struct layout: total size in bytes, and for each field
its name, byte offset and type. -/
structure Layout where
  size : Nat
  fields : List (String × Nat × CType)
deriving DecidableEq

/-- Rounds `o` up to the next multiple of the alignment `a`. -/
def alignUp (o a : Nat) : Nat := if a = 0 then o else ((o + a - 1) / a) * a

/-- Places struct fields at aligned offsets starting from `off`.
Returns the placed fields, the end offset, and the largest field
alignment seen. -/
def placeFields : List (String × CType) → Nat → List (String × Nat × CType) × Nat × Nat
  | [], off => ([], off, 1)
  | (n, t) :: fs, off =>
      let o := alignUp off t.alignofBytes
      let r := placeFields fs (o + t.sizeofBytes)
      ((n, o, t) :: r.1, r.2.1, max t.alignofBytes r.2.2)

/-- The standard C struct layout: fields placed in order at aligned
offsets, total size padded to a multiple of the struct alignment. -/
def structLayout (fields : List (String × CType)) : Layout :=
  let r := placeFields fields 0
  { size := alignUp r.2.1 r.2.2, fields := r.1 }

/-- Elaborating a declaration to a layout; only struct declarations
have one. -/
def elabLayout : CDecl → Option Layout
  | .structDecl _ fs _ => some (structLayout fs)
  | _ => none

/-- C1: `EventRegistrationToken` has exactly one field, a signed
64-bit integer, and its layout occupies exactly 8 bytes, matching a
single `int64_t`. -/
theorem token_layout_is_single_int64_8_bytes :
    elabLayout tokenStructDecl = some { size := 8, fields := [("value", 0, CType.int64)] } ∧
    CType.int64.sizeofBytes = 8 ∧
    CType.int64.isSigned = true ∧
    (structLayout [("value", CType.int64)]).fields.length = 1 := by
  refine ⟨rfl, rfl, rfl, rfl⟩

/-- C2: layout elaboration is deterministic: any two elaborations of
the embedded struct declaration agree, and both give the fixed layout
of 8 bytes with one signed 64-bit field. -/
theorem token_layout_deterministic (l₁ l₂ : Layout)
    (h₁ : elabLayout tokenStructDecl = some l₁)
    (h₂ : elabLayout tokenStructDecl = some l₂) :
    l₁ = l₂ ∧ l₁.size = 8 ∧ l₁.fields = [("value", 0, CType.int64)] ∧
    CType.int64.isSigned = true := by
  have e₁ : l₁ = { size := 8, fields := [("value", 0, CType.int64)] } := by
    have : some ({ size := 8, fields := [("value", 0, CType.int64)] } : Layout) = some l₁ := by
      rw [← h₁]; rfl
    exact (Option.some.inj this).symm
  have e₂ : l₂ = { size := 8, fields := [("value", 0, CType.int64)] } := by
    have : some ({ size := 8, fields := [("value", 0, CType.int64)] } : Layout) = some l₂ := by
      rw [← h₂]; rfl
    exact (Option.some.inj this).symm
  subst e₁; subst e₂
  exact ⟨rfl, rfl, rfl, rfl⟩

/-- Witness for C2 at the concrete layout produced by the header. -/
theorem token_layout_deterministic_witness :
    ({ size := 8, fields := [("value", 0, CType.int64)] } : Layout) =
      { size := 8, fields := [("value", 0, CType.int64)] } ∧
    ({ size := 8, fields := [("value", 0, CType.int64)] } : Layout).size = 8 ∧
    ({ size := 8, fields := [("value", 0, CType.int64)] } : Layout).fields =
      [("value", 0, CType.int64)] ∧
    CType.int64.isSigned = true :=
  token_layout_deterministic
    { size := 8, fields := [("value", 0, CType.int64)] }
    { size := 8, fields := [("value", 0, CType.int64)] }
    rfl rfl

/-- C3: the header contributes exactly one declaration, the struct
`EventRegistrationToken`; it declares no functions and no variables. -/
theorem header_declares_exactly_one_struct :
    includeOnce = [tokenStructDecl] ∧
    includeOnce.length = 1 ∧
    tokenStructDecl.isStructDecl = true ∧
    includeOnce.filter CDecl.isFunDecl = [] ∧
    includeOnce.filter CDecl.isVarDecl = [] := by
  refine ⟨rfl, rfl, rfl, rfl, rfl⟩

/-- C4: every signed 64-bit integer value, including zero and negative
values, yields a well-formed token; the fragment imposes no validity
predicate beyond the storage width. -/
theorem every_int64_makes_wellformed_token (n : Int) (h : isInt64 n = true) :
    wellFormed ⟨n⟩ = true := h

/-- Witness for C4 at the negative input -5. -/
theorem every_int64_makes_wellformed_token_witness :
    isInt64 (-5) = true ∧ wellFormed ⟨-5⟩ = true :=
  ⟨by decide, every_int64_makes_wellformed_token (-5) (by decide)⟩

/-- C5: tokens have pure value semantics: a copy of `t` has the same
`value` field as `t` and is equal to `t`, and copying one token leaves
every other token unchanged. -/
theorem copy_has_value_semantics (t u : EventRegistrationToken) :
    (copyToken t).value = t.value ∧ copyToken t = t ∧
    (copyToken t = t → u = u) := by
  refine ⟨rfl, ?_, fun _ => rfl⟩
  cases t
  rfl

/-- C6: the operations expressible on the token type are total:
construction from any in-range integer succeeds, and copy and field
read are defined on every token and return the expected results. -/
theorem token_operations_total (n : Int) (t : EventRegistrationToken)
    (h : isInt64 n = true) :
    mkToken n = some ⟨n⟩ ∧ copyToken t = ⟨t.value⟩ ∧ readValue t = t.value := by
  refine ⟨?_, rfl, rfl⟩
  unfold mkToken
  rw [h]
  rfl

/-- Witness for C6 at the inputs 0 and the token with value 7. -/
theorem token_operations_total_witness :
    mkToken 0 = some ⟨0⟩ ∧ copyToken ⟨7⟩ = ⟨(7 : Int)⟩ ∧ readValue ⟨7⟩ = 7 :=
  token_operations_total 0 ⟨7⟩ (by decide)

/-- C7: the include guard works: two consecutive inclusions of the
header yield the same single declaration as one inclusion, with no
duplicate struct tag, so no redefinition conflict arises. -/
theorem include_guard_prevents_redefinition :
    includeTwice = includeOnce ∧
    includeTwice = [tokenStructDecl] ∧
    (structTags includeTwice).Nodup := by
  refine ⟨rfl, rfl, ?_⟩
  simp [includeTwice, eventTokenHeader, runPP, structTags, tokenStructDecl]

/-- C8: the token type is isomorphic to its value range: building a
token from `n` and reading the field back returns `n`, and rebuilding
a token from its own field yields the original token. -/
theorem token_int64_round_trip (n : Int) (t : EventRegistrationToken)
    (h : isInt64 n = true) :
    readValue (EventRegistrationToken.mk n) = n ∧
    EventRegistrationToken.mk (readValue t) = t := by
  refine ⟨rfl, ?_⟩
  cases t
  rfl

/-- Witness for C8 at the input 42 and the token with value -1. -/
theorem token_int64_round_trip_witness :
    readValue (EventRegistrationToken.mk 42) = 42 ∧
    EventRegistrationToken.mk (readValue ⟨-1⟩) = ⟨-1⟩ :=
  token_int64_round_trip 42 ⟨-1⟩ (by decide)

/-- C9: token equality is extensional in the single field: two tokens
are equal exactly when their `value` fields are equal. -/
theorem token_equality_extensional (s t : EventRegistrationToken) :
    s = t ↔ s.value = t.value := by
  constructor
  · intro h
    rw [h]
  · intro h
    cases s
    cases t
    simp only at h
    rw [h]

end EventTokenShim
